import Mathlib

/-!
Shallow embedding of the fuel-asm instruction codec.

The repository source under `src/` is `macros.rs`: the `impl_opcodes!` macro
that generates, from a declarative opcode table, one payload struct per opcode
(a wrapper around the 3 operand bytes), the `Opcode` enum with its `TryFrom<u8>`
validation, the `Instruction` union with its `From<Instruction> for [u8; 4]`
encoding and `TryFrom<[u8; 4]>` decoding, and one free constructor function per
opcode.

The declarative opcode table itself and the field packing/unpacking helper
functions (`bytes_from_ra`, `ra_from_bytes`, ...) are not part of `src/`;
those are modelled from the spec (see the doc comments below).  Everything
else is translated directly from `macros.rs`.

Machine integers are modelled as `Fin`: bytes as `Fin 256`, 6-bit register
identifiers as `Fin 64`, and 12/18/24-bit immediates as `Fin` of the
corresponding power of two.  Rust's `Result` is mirrored by a two-constructor
inductive of the same shape.
-/

/-- A byte (`u8`). -/
abbrev U8 := Fin 256

/-- The 3-byte operand field (`[u8; 3]`), most significant byte first. -/
abbrev Bytes3 := U8 × U8 × U8

/-- The 4-byte wire form of an instruction (`[u8; 4]`). -/
abbrev Bytes4 := U8 × U8 × U8 × U8

/-- A register identifier: representable in 6 bits (0–63). -/
abbrev RegId := Fin 64

/-- A 12-bit immediate. -/
abbrev Imm12 := Fin 4096

/-- An 18-bit immediate. -/
abbrev Imm18 := Fin 262144

/-- A 24-bit immediate. -/
abbrev Imm24 := Fin 16777216

/-- Mirror of Rust's `Result` type: `Ok` carries a value, `Err` an error. -/
inductive Result (T : Type) (E : Type) where
  | Ok (v : T)
  | Err (e : E)
deriving DecidableEq, Repr

/-- Failed to parse a `u8` as a valid or non-reserved opcode (the codec's sole
error kind). -/
structure InvalidOpcode where
deriving DecidableEq, Repr

/-- Split a 24-bit value into its 3 bytes, big-endian (most significant
first). -/
def toBytes3 (n : Nat) : Bytes3 :=
  (⟨n / 65536 % 256, by omega⟩, ⟨n / 256 % 256, by omega⟩, ⟨n % 256, by omega⟩)

/-- Reassemble a 24-bit value from its 3 big-endian bytes. -/
def toNat24 : Bytes3 → Nat
  | (a, b, c) => a.val * 65536 + b.val * 256 + c.val

/-- Big-endian interpretation of 4 bytes as a `u32` value
(`u32::from_be_bytes`). -/
def u32_from_be_bytes : Bytes4 → Nat
  | (a, b, c, d) => a.val * 16777216 + b.val * 65536 + c.val * 256 + d.val

/-- Modelled from the spec: the field packing functions (`bytes_from_ra`, ...)
are not under `src/`.  Spec §4.2: fields are packed most-significant-first in
declaration order, each right-aligned in its bit budget, unused low bits of
under-full shapes set to zero.  Shape R1: the register occupies bits 23–18. -/
def bytes_from_ra (ra : RegId) : Bytes3 :=
  toBytes3 (ra.val * 262144)

/-- Modelled from the spec (§4.2): shape R2, registers at bits 23–18 and
17–12, low 12 bits zero. -/
def bytes_from_ra_rb (ra rb : RegId) : Bytes3 :=
  toBytes3 (ra.val * 262144 + rb.val * 4096)

/-- Modelled from the spec (§4.2): shape R3, registers at bits 23–18, 17–12
and 11–6, low 6 bits zero. -/
def bytes_from_ra_rb_rc (ra rb rc : RegId) : Bytes3 :=
  toBytes3 (ra.val * 262144 + rb.val * 4096 + rc.val * 64)

/-- Modelled from the spec (§4.2): shape R4, registers at bits 23–18, 17–12,
11–6 and 5–0. -/
def bytes_from_ra_rb_rc_rd (ra rb rc rd : RegId) : Bytes3 :=
  toBytes3 (ra.val * 262144 + rb.val * 4096 + rc.val * 64 + rd.val)

/-- Modelled from the spec (§4.2): shape R2I12, registers at bits 23–18 and
17–12, immediate in the low 12 bits. -/
def bytes_from_ra_rb_imm12 (ra rb : RegId) (imm : Imm12) : Bytes3 :=
  toBytes3 (ra.val * 262144 + rb.val * 4096 + imm.val)

/-- Modelled from the spec (§4.2): shape R1I18, register at bits 23–18,
immediate in the low 18 bits. -/
def bytes_from_ra_imm18 (ra : RegId) (imm : Imm18) : Bytes3 :=
  toBytes3 (ra.val * 262144 + imm.val)

/-- Modelled from the spec (§4.2): shape I24, the immediate fills all 24
operand bits. -/
def bytes_from_imm24 (imm : Imm24) : Bytes3 :=
  toBytes3 imm.val

/-- Modelled from the spec (§4.2): unpacking extracts each field by shifting
and masking; register A from bits 23–18. -/
def ra_from_bytes (bs : Bytes3) : RegId :=
  ⟨toNat24 bs / 262144 % 64, by omega⟩

/-- Modelled from the spec (§4.2): register B from bits 17–12. -/
def rb_from_bytes (bs : Bytes3) : RegId :=
  ⟨toNat24 bs / 4096 % 64, by omega⟩

/-- Modelled from the spec (§4.2): register C from bits 11–6. -/
def rc_from_bytes (bs : Bytes3) : RegId :=
  ⟨toNat24 bs / 64 % 64, by omega⟩

/-- Modelled from the spec (§4.2): register D from bits 5–0. -/
def rd_from_bytes (bs : Bytes3) : RegId :=
  ⟨toNat24 bs % 64, by omega⟩

/-- Modelled from the spec (§4.2): 12-bit immediate from the low 12 bits. -/
def imm12_from_bytes (bs : Bytes3) : Imm12 :=
  ⟨toNat24 bs % 4096, by omega⟩

/-- Modelled from the spec (§4.2): 18-bit immediate from the low 18 bits. -/
def imm18_from_bytes (bs : Bytes3) : Imm18 :=
  ⟨toNat24 bs % 262144, by omega⟩

/-- Modelled from the spec (§4.2): 24-bit immediate is the whole operand
field. -/
def imm24_from_bytes (bs : Bytes3) : Imm24 :=
  ⟨toNat24 bs % 16777216, by omega⟩

/-- Modelled from the spec (§4.2): combined unpacking for shape R2. -/
def ra_rb_from_bytes (bs : Bytes3) : RegId × RegId :=
  (ra_from_bytes bs, rb_from_bytes bs)

/-- Modelled from the spec (§4.2): combined unpacking for shape R3. -/
def ra_rb_rc_from_bytes (bs : Bytes3) : RegId × RegId × RegId :=
  (ra_from_bytes bs, rb_from_bytes bs, rc_from_bytes bs)

/-- Modelled from the spec (§4.2): combined unpacking for shape R4. -/
def ra_rb_rc_rd_from_bytes (bs : Bytes3) : RegId × RegId × RegId × RegId :=
  (ra_from_bytes bs, rb_from_bytes bs, rc_from_bytes bs, rd_from_bytes bs)

/-- Modelled from the spec (§4.2): combined unpacking for shape R2I12. -/
def ra_rb_imm12_from_bytes (bs : Bytes3) : RegId × RegId × Imm12 :=
  (ra_from_bytes bs, rb_from_bytes bs, imm12_from_bytes bs)

/-- Modelled from the spec (§4.2): combined unpacking for shape R1I18. -/
def ra_imm18_from_bytes (bs : Bytes3) : RegId × Imm18 :=
  (ra_from_bytes bs, imm18_from_bytes bs)

/-!
Per-opcode payload structs (`decl_op_struct`): `pub struct $Op([u8; 3])`.

Modelled from the spec: the declarative opcode table passed to
`impl_opcodes!` is not under `src/`; following the spec's shape table (§3) and
concrete scenarios (§8.7), the registry is modelled with one opcode per shape,
sequential byte values from `0x00` (the spec's registered no-operand opcode)
so that `0xFF` is unregistered.
-/

/-- Performs no operation (shape: no operands). -/
structure NOOP where
  arr : Bytes3
deriving DecidableEq, Repr

/-- Returns from context (shape R1: one register). -/
structure RET where
  arr : Bytes3
deriving DecidableEq, Repr

/-- Copies a register (shape R2: two registers). -/
structure MOVE where
  arr : Bytes3
deriving DecidableEq, Repr

/-- Adds two registers (shape R3: three registers). -/
structure ADD where
  arr : Bytes3
deriving DecidableEq, Repr

/-- Wide comparison (shape R4: four registers). -/
structure WDCM where
  arr : Bytes3
deriving DecidableEq, Repr

/-- Adds a register and an immediate (shape R2I12). -/
structure ADDI where
  arr : Bytes3
deriving DecidableEq, Repr

/-- Conditional jump to an immediate address (shape R1I18). -/
structure JNZI where
  arr : Bytes3
deriving DecidableEq, Repr

/-- Jump to an immediate address (shape I24). -/
structure JI where
  arr : Bytes3
deriving DecidableEq, Repr

/-- Solely the opcode portion of an instruction represented as a single byte
(`decl_opcode_enum`). -/
inductive Opcode where
  | NOOP
  | RET
  | MOVE
  | ADD
  | WDCM
  | ADDI
  | JNZI
  | JI
deriving DecidableEq, Repr, Fintype

/-- The `#[repr(u8)]` discriminant of each opcode (`Opcode::$Op as u8`):
the byte value assigned in the registry. -/
def Opcode.toU8 : Opcode → U8
  | .NOOP => ⟨0, by omega⟩
  | .RET => ⟨1, by omega⟩
  | .MOVE => ⟨2, by omega⟩
  | .ADD => ⟨3, by omega⟩
  | .WDCM => ⟨4, by omega⟩
  | .ADDI => ⟨5, by omega⟩
  | .JNZI => ⟨6, by omega⟩
  | .JI => ⟨7, by omega⟩

/-- Mirrors `impl TryFrom<u8> for Opcode` (`impl_opcode`): match the byte against every
registered value, `Err(InvalidOpcode)` otherwise. -/
def Opcode.try_from (u : U8) : Result Opcode InvalidOpcode :=
  if u.val = 0 then .Ok .NOOP
  else if u.val = 1 then .Ok .RET
  else if u.val = 2 then .Ok .MOVE
  else if u.val = 3 then .Ok .ADD
  else if u.val = 4 then .Ok .WDCM
  else if u.val = 5 then .Ok .ADDI
  else if u.val = 6 then .Ok .JNZI
  else if u.val = 7 then .Ok .JI
  else .Err ⟨⟩

/-- Representation of a single instruction for the interpreter
(`decl_instruction_enum`): one variant per opcode, wrapping the per-opcode
payload struct. -/
inductive Instruction where
  | NOOP (op : NOOP)
  | RET (op : RET)
  | MOVE (op : MOVE)
  | ADD (op : ADD)
  | WDCM (op : WDCM)
  | ADDI (op : ADDI)
  | JNZI (op : JNZI)
  | JI (op : JI)
deriving DecidableEq, Repr

/-!
Per-opcode impls (`impl_op`): the associated `OPCODE` const, the
shape-specific `new` constructor (`impl_op_new`), the tuple `unpack`
(`impl_op_unpack`), and the conversions to `[u8; 3]`, `[u8; 4]`, `u32` and
`Instruction`.
-/

/-- The associated 8-bit Opcode value of `NOOP`. -/
def NOOP.OPCODE : Opcode := Opcode.NOOP

/-- Mirrors `NOOP::new()`: construct the instruction (`Self([0; 3])`). -/
def NOOP.new : NOOP := ⟨(0, 0, 0)⟩

/-- Mirrors `From<NOOP> for [u8; 3]`. -/
def NOOP.to_bytes3 (x : NOOP) : Bytes3 := x.arr

/-- Mirrors `From<NOOP> for [u8; 4]`: prefix the fixed opcode byte. -/
def NOOP.to_bytes4 : NOOP → Bytes4
  | ⟨(a, b, c)⟩ => (Opcode.toU8 NOOP.OPCODE, a, b, c)

/-- Mirrors `From<NOOP> for u32`: big-endian interpretation of the 4 wire bytes. -/
def NOOP.to_u32 (x : NOOP) : Nat := u32_from_be_bytes x.to_bytes4

/-- Mirrors `From<NOOP> for Instruction`. -/
def NOOP.to_Instruction (x : NOOP) : Instruction := Instruction.NOOP x

/-- The associated 8-bit Opcode value of `RET`. -/
def RET.OPCODE : Opcode := Opcode.RET

/-- Mirrors `RET::new(ra)`: construct the instruction from its parts. -/
def RET.new (ra : RegId) : RET := ⟨bytes_from_ra ra⟩

/-- Mirrors `RET::unpack`: convert the instruction into its parts. -/
def RET.unpack (x : RET) : RegId := ra_from_bytes x.arr

/-- Mirrors `From<RET> for [u8; 3]`. -/
def RET.to_bytes3 (x : RET) : Bytes3 := x.arr

/-- Mirrors `From<RET> for [u8; 4]`: prefix the fixed opcode byte. -/
def RET.to_bytes4 : RET → Bytes4
  | ⟨(a, b, c)⟩ => (Opcode.toU8 RET.OPCODE, a, b, c)

/-- Mirrors `From<RET> for u32`: big-endian interpretation of the 4 wire bytes. -/
def RET.to_u32 (x : RET) : Nat := u32_from_be_bytes x.to_bytes4

/-- Mirrors `From<RET> for Instruction`. -/
def RET.to_Instruction (x : RET) : Instruction := Instruction.RET x

/-- The associated 8-bit Opcode value of `MOVE`. -/
def MOVE.OPCODE : Opcode := Opcode.MOVE

/-- Mirrors `MOVE::new(ra, rb)`: construct the instruction from its parts. -/
def MOVE.new (ra rb : RegId) : MOVE := ⟨bytes_from_ra_rb ra rb⟩

/-- Mirrors `MOVE::unpack`: convert the instruction into its parts. -/
def MOVE.unpack (x : MOVE) : RegId × RegId := ra_rb_from_bytes x.arr

/-- Mirrors `From<MOVE> for [u8; 3]`. -/
def MOVE.to_bytes3 (x : MOVE) : Bytes3 := x.arr

/-- Mirrors `From<MOVE> for [u8; 4]`: prefix the fixed opcode byte. -/
def MOVE.to_bytes4 : MOVE → Bytes4
  | ⟨(a, b, c)⟩ => (Opcode.toU8 MOVE.OPCODE, a, b, c)

/-- Mirrors `From<MOVE> for u32`: big-endian interpretation of the 4 wire bytes. -/
def MOVE.to_u32 (x : MOVE) : Nat := u32_from_be_bytes x.to_bytes4

/-- Mirrors `From<MOVE> for Instruction`. -/
def MOVE.to_Instruction (x : MOVE) : Instruction := Instruction.MOVE x

/-- The associated 8-bit Opcode value of `ADD`. -/
def ADD.OPCODE : Opcode := Opcode.ADD

/-- Mirrors `ADD::new(ra, rb, rc)`: construct the instruction from its parts. -/
def ADD.new (ra rb rc : RegId) : ADD := ⟨bytes_from_ra_rb_rc ra rb rc⟩

/-- Mirrors `ADD::unpack`: convert the instruction into its parts. -/
def ADD.unpack (x : ADD) : RegId × RegId × RegId := ra_rb_rc_from_bytes x.arr

/-- Mirrors `From<ADD> for [u8; 3]`. -/
def ADD.to_bytes3 (x : ADD) : Bytes3 := x.arr

/-- Mirrors `From<ADD> for [u8; 4]`: prefix the fixed opcode byte. -/
def ADD.to_bytes4 : ADD → Bytes4
  | ⟨(a, b, c)⟩ => (Opcode.toU8 ADD.OPCODE, a, b, c)

/-- Mirrors `From<ADD> for u32`: big-endian interpretation of the 4 wire bytes. -/
def ADD.to_u32 (x : ADD) : Nat := u32_from_be_bytes x.to_bytes4

/-- Mirrors `From<ADD> for Instruction`. -/
def ADD.to_Instruction (x : ADD) : Instruction := Instruction.ADD x

/-- The associated 8-bit Opcode value of `WDCM`. -/
def WDCM.OPCODE : Opcode := Opcode.WDCM

/-- Mirrors `WDCM::new(ra, rb, rc, rd)`: construct the instruction from its parts. -/
def WDCM.new (ra rb rc rd : RegId) : WDCM := ⟨bytes_from_ra_rb_rc_rd ra rb rc rd⟩

/-- Mirrors `WDCM::unpack`: convert the instruction into its parts. -/
def WDCM.unpack (x : WDCM) : RegId × RegId × RegId × RegId :=
  ra_rb_rc_rd_from_bytes x.arr

/-- Mirrors `From<WDCM> for [u8; 3]`. -/
def WDCM.to_bytes3 (x : WDCM) : Bytes3 := x.arr

/-- Mirrors `From<WDCM> for [u8; 4]`: prefix the fixed opcode byte. -/
def WDCM.to_bytes4 : WDCM → Bytes4
  | ⟨(a, b, c)⟩ => (Opcode.toU8 WDCM.OPCODE, a, b, c)

/-- Mirrors `From<WDCM> for u32`: big-endian interpretation of the 4 wire bytes. -/
def WDCM.to_u32 (x : WDCM) : Nat := u32_from_be_bytes x.to_bytes4

/-- Mirrors `From<WDCM> for Instruction`. -/
def WDCM.to_Instruction (x : WDCM) : Instruction := Instruction.WDCM x

/-- The associated 8-bit Opcode value of `ADDI`. -/
def ADDI.OPCODE : Opcode := Opcode.ADDI

/-- Mirrors `ADDI::new(ra, rb, imm)`: construct the instruction from its parts. -/
def ADDI.new (ra rb : RegId) (imm : Imm12) : ADDI :=
  ⟨bytes_from_ra_rb_imm12 ra rb imm⟩

/-- Mirrors `ADDI::unpack`: convert the instruction into its parts. -/
def ADDI.unpack (x : ADDI) : RegId × RegId × Imm12 :=
  ra_rb_imm12_from_bytes x.arr

/-- Mirrors `From<ADDI> for [u8; 3]`. -/
def ADDI.to_bytes3 (x : ADDI) : Bytes3 := x.arr

/-- Mirrors `From<ADDI> for [u8; 4]`: prefix the fixed opcode byte. -/
def ADDI.to_bytes4 : ADDI → Bytes4
  | ⟨(a, b, c)⟩ => (Opcode.toU8 ADDI.OPCODE, a, b, c)

/-- Mirrors `From<ADDI> for u32`: big-endian interpretation of the 4 wire bytes. -/
def ADDI.to_u32 (x : ADDI) : Nat := u32_from_be_bytes x.to_bytes4

/-- Mirrors `From<ADDI> for Instruction`. -/
def ADDI.to_Instruction (x : ADDI) : Instruction := Instruction.ADDI x

/-- The associated 8-bit Opcode value of `JNZI`. -/
def JNZI.OPCODE : Opcode := Opcode.JNZI

/-- Mirrors `JNZI::new(ra, imm)`: construct the instruction from its parts. -/
def JNZI.new (ra : RegId) (imm : Imm18) : JNZI := ⟨bytes_from_ra_imm18 ra imm⟩

/-- Mirrors `JNZI::unpack`: convert the instruction into its parts. -/
def JNZI.unpack (x : JNZI) : RegId × Imm18 := ra_imm18_from_bytes x.arr

/-- Mirrors `From<JNZI> for [u8; 3]`. -/
def JNZI.to_bytes3 (x : JNZI) : Bytes3 := x.arr

/-- Mirrors `From<JNZI> for [u8; 4]`: prefix the fixed opcode byte. -/
def JNZI.to_bytes4 : JNZI → Bytes4
  | ⟨(a, b, c)⟩ => (Opcode.toU8 JNZI.OPCODE, a, b, c)

/-- Mirrors `From<JNZI> for u32`: big-endian interpretation of the 4 wire bytes. -/
def JNZI.to_u32 (x : JNZI) : Nat := u32_from_be_bytes x.to_bytes4

/-- Mirrors `From<JNZI> for Instruction`. -/
def JNZI.to_Instruction (x : JNZI) : Instruction := Instruction.JNZI x

/-- The associated 8-bit Opcode value of `JI`. -/
def JI.OPCODE : Opcode := Opcode.JI

/-- Mirrors `JI::new(imm)`: construct the instruction from its parts. -/
def JI.new (imm : Imm24) : JI := ⟨bytes_from_imm24 imm⟩

/-- Mirrors `JI::unpack`: convert the instruction into its parts. -/
def JI.unpack (x : JI) : Imm24 := imm24_from_bytes x.arr

/-- Mirrors `From<JI> for [u8; 3]`. -/
def JI.to_bytes3 (x : JI) : Bytes3 := x.arr

/-- Mirrors `From<JI> for [u8; 4]`: prefix the fixed opcode byte. -/
def JI.to_bytes4 : JI → Bytes4
  | ⟨(a, b, c)⟩ => (Opcode.toU8 JI.OPCODE, a, b, c)

/-- Mirrors `From<JI> for u32`: big-endian interpretation of the 4 wire bytes. -/
def JI.to_u32 (x : JI) : Nat := u32_from_be_bytes x.to_bytes4

/-- Mirrors `From<JI> for Instruction`. -/
def JI.to_Instruction (x : JI) : Instruction := Instruction.JI x

/-!
Free constructor functions (`impl_op_constructor`): one per opcode, named
after its mnemonic, building the per-opcode value with `new` and converting it
into the `Instruction` union.
-/

/-- Free constructor for `NOOP` (`$Op::new().into()`). -/
def noop : Instruction := NOOP.new.to_Instruction

/-- Free constructor for `RET` (`$Op::new(ra).into()`). -/
def ret (ra : RegId) : Instruction := (RET.new ra).to_Instruction

/-- Free constructor for `MOVE` (`$Op::new(ra, rb).into()`). -/
def move (ra rb : RegId) : Instruction := (MOVE.new ra rb).to_Instruction

/-- Free constructor for `ADD` (`$Op::new(ra, rb, rc).into()`). -/
def add (ra rb rc : RegId) : Instruction := (ADD.new ra rb rc).to_Instruction

/-- Free constructor for `WDCM` (`$Op::new(ra, rb, rc, rd).into()`). -/
def wdcm (ra rb rc rd : RegId) : Instruction :=
  (WDCM.new ra rb rc rd).to_Instruction

/-- Free constructor for `ADDI` (`$Op::new(ra, rb, imm).into()`). -/
def addi (ra rb : RegId) (imm : Imm12) : Instruction :=
  (ADDI.new ra rb imm).to_Instruction

/-- Free constructor for `JNZI` (`$Op::new(ra, imm).into()`). -/
def jnzi (ra : RegId) (imm : Imm18) : Instruction :=
  (JNZI.new ra imm).to_Instruction

/-- Free constructor for `JI` (`$Op::new(imm).into()`). -/
def ji (imm : Imm24) : Instruction := (JI.new imm).to_Instruction

/-!
`impl_instruction`: the `Instruction`-level operations.
-/

/-- Mirrors `Instruction::opcode`: this instruction's opcode, matched on the variant
tag alone. -/
def Instruction.opcode : Instruction → Opcode
  | .NOOP _ => Opcode.NOOP
  | .RET _ => Opcode.RET
  | .MOVE _ => Opcode.MOVE
  | .ADD _ => Opcode.ADD
  | .WDCM _ => Opcode.WDCM
  | .ADDI _ => Opcode.ADDI
  | .JNZI _ => Opcode.JNZI
  | .JI _ => Opcode.JI

/-- Mirrors `From<Instruction> for [u8; 4]`: dispatch on the variant and delegate to
the per-opcode 4-byte conversion. -/
def Instruction.to_bytes4 : Instruction → Bytes4
  | .NOOP op => op.to_bytes4
  | .RET op => op.to_bytes4
  | .MOVE op => op.to_bytes4
  | .ADD op => op.to_bytes4
  | .WDCM op => op.to_bytes4
  | .ADDI op => op.to_bytes4
  | .JNZI op => op.to_bytes4
  | .JI op => op.to_bytes4

/-- Projection of the 3-byte operand field out of the union, dispatching to
the per-opcode `From<$Op> for [u8; 3]` conversion. -/
def Instruction.payload : Instruction → Bytes3
  | .NOOP op => op.to_bytes3
  | .RET op => op.to_bytes3
  | .MOVE op => op.to_bytes3
  | .ADD op => op.to_bytes3
  | .WDCM op => op.to_bytes3
  | .ADDI op => op.to_bytes3
  | .JNZI op => op.to_bytes3
  | .JI op => op.to_bytes3

/-- Dispatch of the per-opcode `From<$Op> for u32` conversion on the union. -/
def Instruction.to_u32 : Instruction → Nat
  | .NOOP op => op.to_u32
  | .RET op => op.to_u32
  | .MOVE op => op.to_u32
  | .ADD op => op.to_u32
  | .WDCM op => op.to_u32
  | .ADDI op => op.to_u32
  | .JNZI op => op.to_u32
  | .JI op => op.to_u32

/-- Mirrors `impl TryFrom<[u8; 4]> for Instruction`: validate the opcode byte with
`Opcode::try_from` (propagating `InvalidOpcode`), then wrap the remaining
3 bytes verbatim in the variant selected by the opcode. -/
def Instruction.try_from : Bytes4 → Result Instruction InvalidOpcode
  | (op, a, b, c) =>
    match Opcode.try_from op with
    | .Err e => .Err e
    | .Ok Opcode.NOOP => .Ok (.NOOP ⟨(a, b, c)⟩)
    | .Ok Opcode.RET => .Ok (.RET ⟨(a, b, c)⟩)
    | .Ok Opcode.MOVE => .Ok (.MOVE ⟨(a, b, c)⟩)
    | .Ok Opcode.ADD => .Ok (.ADD ⟨(a, b, c)⟩)
    | .Ok Opcode.WDCM => .Ok (.WDCM ⟨(a, b, c)⟩)
    | .Ok Opcode.ADDI => .Ok (.ADDI ⟨(a, b, c)⟩)
    | .Ok Opcode.JNZI => .Ok (.JNZI ⟨(a, b, c)⟩)
    | .Ok Opcode.JI => .Ok (.JI ⟨(a, b, c)⟩)

/-!
Spec-side predicates about reserved operand bits (spec §3 table and §4.2:
under-full shapes R1, R2, R3 leave their low-order operand bits unused).
These are written from the spec's words, as hypotheses for the round-trip
claims.
-/

/-- The reserved (unused) operand bits of the under-full shapes R1, R2, R3
are all zero in this wire word; words whose opcode has a full shape, or an
unregistered opcode byte, impose no condition. -/
def reserved_bits_zero : Bytes4 → Prop
  | (op, a, b, c) =>
    (Opcode.try_from op = .Ok Opcode.RET → toNat24 (a, b, c) % 262144 = 0) ∧
    (Opcode.try_from op = .Ok Opcode.MOVE → toNat24 (a, b, c) % 4096 = 0) ∧
    (Opcode.try_from op = .Ok Opcode.ADD → toNat24 (a, b, c) % 64 = 0)

/-- The opcode byte is registered with an under-full shape (R1, R2 or R3) and
at least one reserved operand bit is nonzero. -/
def underfull_reserved_nonzero : Bytes4 → Prop
  | (op, a, b, c) =>
    (Opcode.try_from op = .Ok Opcode.RET ∧ toNat24 (a, b, c) % 262144 ≠ 0) ∨
    (Opcode.try_from op = .Ok Opcode.MOVE ∧ toNat24 (a, b, c) % 4096 ≠ 0) ∨
    (Opcode.try_from op = .Ok Opcode.ADD ∧ toNat24 (a, b, c) % 64 ≠ 0)

instance : DecidablePred reserved_bits_zero := by
  intro b
  rcases b with ⟨op, a, b, c⟩
  unfold reserved_bits_zero
  infer_instance

instance : DecidablePred underfull_reserved_nonzero := by
  intro b
  rcases b with ⟨op, a, b, c⟩
  unfold underfull_reserved_nonzero
  infer_instance

/-!
Helper lemmas shared by the claim theorems.
-/

set_option maxRecDepth 8192 in
/-- Whenever the byte-to-opcode validation succeeds, the returned opcode's
registered byte value is the input byte. -/
theorem toU8_of_try_from_ok :
    ∀ (u : U8) (o : Opcode), Opcode.try_from u = .Ok o → Opcode.toU8 o = u := by
  decide

/-- Whenever decoding a 4-byte word succeeds, re-encoding the decoded
instruction reproduces the word exactly: the decoder stores the 3 operand
bytes verbatim and the encoder emits them verbatim behind the opcode byte. -/
theorem encode_of_decode_ok (w : Bytes4) (i : Instruction)
    (h : Instruction.try_from w = Result.Ok i) :
    Instruction.to_bytes4 i = w := by
  rcases w with ⟨op, a, b, c⟩
  rcases hop : Opcode.try_from op with o | e
  · have hu := toU8_of_try_from_ok op o hop
    cases o <;> simp only [Instruction.try_from, hop] at h <;>
      (injection h with h2; subst h2; subst hu; rfl)
  · simp only [Instruction.try_from, hop] at h
    exact Result.noConfusion h

/-- Pack-then-unpack identity for shape R1. -/
theorem unpack_new_r1 (ra : RegId) : RET.unpack (RET.new ra) = ra := by
  obtain ⟨ra, hra⟩ := ra
  simp only [RET.unpack, RET.new, bytes_from_ra, ra_from_bytes, toBytes3,
    toNat24, Fin.mk.injEq]
  omega

/-- Pack-then-unpack identity for shape R2. -/
theorem unpack_new_r2 (ra rb : RegId) :
    MOVE.unpack (MOVE.new ra rb) = (ra, rb) := by
  obtain ⟨ra, hra⟩ := ra
  obtain ⟨rb, hrb⟩ := rb
  simp only [MOVE.unpack, MOVE.new, bytes_from_ra_rb, ra_rb_from_bytes,
    ra_from_bytes, rb_from_bytes, toBytes3, toNat24, Prod.mk.injEq,
    Fin.mk.injEq]
  omega

/-- Pack-then-unpack identity for shape R3. -/
theorem unpack_new_r3 (ra rb rc : RegId) :
    ADD.unpack (ADD.new ra rb rc) = (ra, rb, rc) := by
  obtain ⟨ra, hra⟩ := ra
  obtain ⟨rb, hrb⟩ := rb
  obtain ⟨rc, hrc⟩ := rc
  simp only [ADD.unpack, ADD.new, bytes_from_ra_rb_rc, ra_rb_rc_from_bytes,
    ra_from_bytes, rb_from_bytes, rc_from_bytes, toBytes3, toNat24,
    Prod.mk.injEq, Fin.mk.injEq]
  omega

/-- Pack-then-unpack identity for shape R4. -/
theorem unpack_new_r4 (ra rb rc rd : RegId) :
    WDCM.unpack (WDCM.new ra rb rc rd) = (ra, rb, rc, rd) := by
  obtain ⟨ra, hra⟩ := ra
  obtain ⟨rb, hrb⟩ := rb
  obtain ⟨rc, hrc⟩ := rc
  obtain ⟨rd, hrd⟩ := rd
  simp only [WDCM.unpack, WDCM.new, bytes_from_ra_rb_rc_rd,
    ra_rb_rc_rd_from_bytes, ra_from_bytes, rb_from_bytes, rc_from_bytes,
    rd_from_bytes, toBytes3, toNat24, Prod.mk.injEq, Fin.mk.injEq]
  omega

/-- Pack-then-unpack identity for shape R2I12. -/
theorem unpack_new_r2i12 (ra rb : RegId) (imm : Imm12) :
    ADDI.unpack (ADDI.new ra rb imm) = (ra, rb, imm) := by
  obtain ⟨ra, hra⟩ := ra
  obtain ⟨rb, hrb⟩ := rb
  obtain ⟨imm, him⟩ := imm
  simp only [ADDI.unpack, ADDI.new, bytes_from_ra_rb_imm12,
    ra_rb_imm12_from_bytes, ra_from_bytes, rb_from_bytes, imm12_from_bytes,
    toBytes3, toNat24, Prod.mk.injEq, Fin.mk.injEq]
  omega

/-- Pack-then-unpack identity for shape R1I18. -/
theorem unpack_new_r1i18 (ra : RegId) (imm : Imm18) :
    JNZI.unpack (JNZI.new ra imm) = (ra, imm) := by
  obtain ⟨ra, hra⟩ := ra
  obtain ⟨imm, him⟩ := imm
  simp only [JNZI.unpack, JNZI.new, bytes_from_ra_imm18, ra_imm18_from_bytes,
    ra_from_bytes, imm18_from_bytes, toBytes3, toNat24, Prod.mk.injEq,
    Fin.mk.injEq]
  omega

/-- Pack-then-unpack identity for shape I24. -/
theorem unpack_new_i24 (imm : Imm24) : JI.unpack (JI.new imm) = imm := by
  obtain ⟨imm, him⟩ := imm
  simp only [JI.unpack, JI.new, bytes_from_imm24, imm24_from_bytes, toBytes3,
    toNat24, Fin.mk.injEq]
  omega

/-!
Claim theorems.
-/

/-- C1: for every value of the `Instruction` union, however constructed,
encoding it to its 4-byte wire form and decoding those 4 bytes succeeds and
returns an instruction equal to the original:
`decode(encode(i)) == Ok(i)`. -/
theorem decode_encode_roundtrip (i : Instruction) :
    Instruction.try_from (Instruction.to_bytes4 i) = Result.Ok i := by
  cases i <;> rename_i op <;> obtain ⟨⟨a, b, c⟩⟩ := op <;> rfl

/-- C2: for every 4-byte word whose first byte is a registered opcode
(witnessed by a successful decode) and whose reserved operand bits for the
under-full shapes R1, R2, R3 are zero, re-encoding the decoded instruction
reproduces the word exactly: `encode(decode(b).unwrap()) == b`. -/
theorem encode_decode_roundtrip_reserved_zero (w : Bytes4) (i : Instruction)
    (_hz : reserved_bits_zero w) (h : Instruction.try_from w = Result.Ok i) :
    Instruction.to_bytes4 i = w :=
  encode_of_decode_ok w i h

/-- Witness for C2 at the concrete word `[0x01, 4, 0, 0]` (opcode `RET`,
shape R1, register A equal to 1, reserved bits zero). -/
theorem encode_decode_roundtrip_reserved_zero_at :
    reserved_bits_zero (1, 4, 0, 0) ∧
      Instruction.to_bytes4 (Instruction.RET ⟨(4, 0, 0)⟩) = (1, 4, 0, 0) :=
  ⟨by decide,
    encode_decode_roundtrip_reserved_zero (1, 4, 0, 0)
      (Instruction.RET ⟨(4, 0, 0)⟩) (by decide) (by decide)⟩

/-- C3 counterexample: the word `[0x01, 0, 0, 1]` has the under-full R1
opcode `RET` with a nonzero reserved bit; decoding it and re-encoding yields
the word back unchanged — not the word with its reserved bits cleared, and
not a word different from the input, refuting the claim that
`encode(decode(b).unwrap())` clears the reserved bits. -/
theorem reserved_bits_not_cleared_cex :
    underfull_reserved_nonzero (1, 0, 0, 1) ∧
      Instruction.try_from (1, 0, 0, 1) =
        Result.Ok (Instruction.RET ⟨(0, 0, 1)⟩) ∧
      Instruction.to_bytes4 (Instruction.RET ⟨(0, 0, 1)⟩) = (1, 0, 0, 1) ∧
      Instruction.to_bytes4 (Instruction.RET ⟨(0, 0, 1)⟩) ≠ (1, 0, 0, 0) := by
  refine ⟨by decide, by decide, by decide, by decide⟩

/-- C3 amended: for every 4-byte word whose first byte is a registered opcode
of an under-full shape (R1, R2 or R3) and whose reserved operand bits are
nonzero, re-encoding the decoded instruction reproduces the word exactly —
the reserved bits are preserved verbatim, not cleared. -/
theorem encode_decode_roundtrip_reserved_nonzero (w : Bytes4) (i : Instruction)
    (_hnz : underfull_reserved_nonzero w)
    (h : Instruction.try_from w = Result.Ok i) :
    Instruction.to_bytes4 i = w :=
  encode_of_decode_ok w i h

/-- Witness for the amended C3 at the concrete word `[0x02, 0, 0, 5]`
(opcode `MOVE`, shape R2, nonzero reserved bits). -/
theorem encode_decode_roundtrip_reserved_nonzero_at :
    underfull_reserved_nonzero (2, 0, 0, 5) ∧
      Instruction.to_bytes4 (Instruction.MOVE ⟨(0, 0, 5)⟩) = (2, 0, 0, 5) :=
  ⟨by decide,
    encode_decode_roundtrip_reserved_nonzero (2, 0, 0, 5)
      (Instruction.MOVE ⟨(0, 0, 5)⟩) (by decide) (by decide)⟩

set_option maxRecDepth 8192 in
/-- C4: for every byte, `Opcode::try_from` returns `Ok(op)` exactly when the
byte is a registered opcode byte value, and then `op` is the opcode registered
for it; every other byte yields `Err(InvalidOpcode)`; and no two registered
opcodes share a byte value. -/
theorem opcode_registry_correct :
    (∀ u : U8, ∀ o : Opcode,
      Opcode.try_from u = Result.Ok o ↔ Opcode.toU8 o = u) ∧
    (∀ u : U8, (∀ o : Opcode, Opcode.toU8 o ≠ u) →
      Opcode.try_from u = Result.Err ⟨⟩) ∧
    (∀ o1 o2 : Opcode, Opcode.toU8 o1 = Opcode.toU8 o2 → o1 = o2) := by
  decide

/-- Witness for C4 at the unregistered byte `0xFF`. -/
theorem opcode_registry_correct_at :
    Opcode.try_from 255 = Result.Err ⟨⟩ :=
  opcode_registry_correct.2.1 255 (by decide)

/-- C5: decoding a 4-byte word fails (with `InvalidOpcode`) exactly when its
first byte is not a registered opcode byte; once the opcode byte is
recognised, the three operand bytes never cause a failure — decoding succeeds
for every combination of them. -/
theorem decode_err_iff_opcode_err (op a b c : U8) :
    (Instruction.try_from (op, a, b, c) = Result.Err ⟨⟩ ↔
      Opcode.try_from op = Result.Err ⟨⟩) ∧
    (∀ o : Opcode, Opcode.try_from op = Result.Ok o →
      ∃ i, Instruction.try_from (op, a, b, c) = Result.Ok i) := by
  rcases hop : Opcode.try_from op with o | e
  · constructor
    · cases o <;> simp only [Instruction.try_from, hop] <;>
        exact ⟨fun h => Result.noConfusion h, fun h => Result.noConfusion h⟩
    · intro o' ho'
      injection ho' with h2
      subst h2
      cases o <;> exact ⟨_, by simp only [Instruction.try_from, hop]; rfl⟩
  · obtain ⟨⟩ := e
    constructor
    · simp only [Instruction.try_from, hop]
    · intro o' ho'
      exact Result.noConfusion ho'

/-- Witness for C5: with the registered opcode byte `0x00` in front, the
operand bytes `(10, 20, 30)` decode successfully. -/
theorem decode_err_iff_opcode_err_at :
    ∃ i, Instruction.try_from (0, 10, 20, 30) = Result.Ok i :=
  (decode_err_iff_opcode_err 0 10 20 30).2 Opcode.NOOP (by decide)

/-- C6: the 4-byte encoding of every `Instruction` carries the opcode's
registered byte value at index 0 and the 3-byte operand field at indices 1–3,
and the `u32` conversion is the big-endian interpretation of those same
4 bytes; both conversions are total functions of the instruction value. -/
theorem encode_layout (i : Instruction) :
    Instruction.to_bytes4 i =
      (Opcode.toU8 (Instruction.opcode i), Instruction.payload i) ∧
    Instruction.to_u32 i = u32_from_be_bytes (Instruction.to_bytes4 i) := by
  cases i <;> rename_i op <;> obtain ⟨⟨a, b, c⟩⟩ := op <;> exact ⟨rfl, rfl⟩

/-- C7: for each of the 7 operand shapes, packing width-constrained fields
with `new` and unpacking with `unpack` returns exactly the original fields;
in particular, for shape R2I12, packing registers `(3, 7)` with immediate
`1000` and unpacking yields exactly `(3, 7, 1000)`. -/
theorem pack_unpack_inverse :
    (∀ ra, RET.unpack (RET.new ra) = ra) ∧
    (∀ ra rb, MOVE.unpack (MOVE.new ra rb) = (ra, rb)) ∧
    (∀ ra rb rc, ADD.unpack (ADD.new ra rb rc) = (ra, rb, rc)) ∧
    (∀ ra rb rc rd, WDCM.unpack (WDCM.new ra rb rc rd) = (ra, rb, rc, rd)) ∧
    (∀ ra rb imm, ADDI.unpack (ADDI.new ra rb imm) = (ra, rb, imm)) ∧
    (∀ ra imm, JNZI.unpack (JNZI.new ra imm) = (ra, imm)) ∧
    (∀ imm, JI.unpack (JI.new imm) = imm) ∧
    ADDI.unpack (ADDI.new 3 7 1000) = (3, 7, 1000) :=
  ⟨unpack_new_r1, unpack_new_r2, unpack_new_r3, unpack_new_r4,
    unpack_new_r2i12, unpack_new_r1i18, unpack_new_i24, by decide⟩

/-- C8: `Instruction::opcode` is determined solely by the variant tag — for
every payload, each variant yields the opcode of the same name — and for
every successfully decoded word the opcode's byte value equals the word's
first byte. -/
theorem opcode_from_variant :
    (∀ arr : Bytes3,
      (Instruction.NOOP ⟨arr⟩).opcode = Opcode.NOOP ∧
      (Instruction.RET ⟨arr⟩).opcode = Opcode.RET ∧
      (Instruction.MOVE ⟨arr⟩).opcode = Opcode.MOVE ∧
      (Instruction.ADD ⟨arr⟩).opcode = Opcode.ADD ∧
      (Instruction.WDCM ⟨arr⟩).opcode = Opcode.WDCM ∧
      (Instruction.ADDI ⟨arr⟩).opcode = Opcode.ADDI ∧
      (Instruction.JNZI ⟨arr⟩).opcode = Opcode.JNZI ∧
      (Instruction.JI ⟨arr⟩).opcode = Opcode.JI) ∧
    (∀ (w : Bytes4) (i : Instruction), Instruction.try_from w = Result.Ok i →
      Opcode.toU8 (Instruction.opcode i) = w.1) := by
  refine ⟨fun arr => ⟨rfl, rfl, rfl, rfl, rfl, rfl, rfl, rfl⟩, ?_⟩
  intro w i h
  rcases w with ⟨op, a, b, c⟩
  rcases hop : Opcode.try_from op with o | e
  · have hu := toU8_of_try_from_ok op o hop
    cases o <;> simp only [Instruction.try_from, hop] at h <;>
      (injection h with h2; subst h2; subst hu; rfl)
  · simp only [Instruction.try_from, hop] at h
    exact Result.noConfusion h

/-- Witness for C8 at the decoded word `[0, 0, 0, 0]`. -/
theorem opcode_from_variant_at :
    Opcode.toU8 (Instruction.opcode (Instruction.NOOP ⟨(0, 0, 0)⟩)) = 0 :=
  opcode_from_variant.2 (0, 0, 0, 0) (Instruction.NOOP ⟨(0, 0, 0)⟩) (by decide)

/-- C9: every free-function constructor named after an opcode's mnemonic
returns exactly the `Instruction` built by the per-opcode `new` on the same
fields followed by the conversion into the union; the free functions add no
behaviour of their own. -/
theorem free_constructors_delegate :
    noop = NOOP.new.to_Instruction ∧
    (∀ ra, ret ra = (RET.new ra).to_Instruction) ∧
    (∀ ra rb, move ra rb = (MOVE.new ra rb).to_Instruction) ∧
    (∀ ra rb rc, add ra rb rc = (ADD.new ra rb rc).to_Instruction) ∧
    (∀ ra rb rc rd, wdcm ra rb rc rd = (WDCM.new ra rb rc rd).to_Instruction) ∧
    (∀ ra rb imm, addi ra rb imm = (ADDI.new ra rb imm).to_Instruction) ∧
    (∀ ra imm, jnzi ra imm = (JNZI.new ra imm).to_Instruction) ∧
    (∀ imm, ji imm = (JI.new imm).to_Instruction) :=
  ⟨rfl, fun _ => rfl, fun _ _ => rfl, fun _ _ _ => rfl, fun _ _ _ _ => rfl,
    fun _ _ _ => rfl, fun _ _ => rfl, fun _ => rfl⟩

/-- C10: decoding preserves the operand bytes verbatim — for every registered
opcode byte and all operand bytes, the decoded instruction wraps exactly those
3 bytes with no masking or zeroing, so re-encoding reproduces the input word
for all operand bytes, including nonzero bits in reserved positions of
under-full shapes. -/
theorem decode_preserves_payload (op a b c : U8) (i : Instruction)
    (h : Instruction.try_from (op, a, b, c) = Result.Ok i) :
    Instruction.payload i = (a, b, c) ∧
      Instruction.to_bytes4 i = (op, a, b, c) := by
  refine ⟨?_, encode_of_decode_ok (op, a, b, c) i h⟩
  rcases hop : Opcode.try_from op with o | e
  · cases o <;> simp only [Instruction.try_from, hop] at h <;>
      (injection h with h2; subst h2; rfl)
  · simp only [Instruction.try_from, hop] at h
    exact Result.noConfusion h

/-- Witness for C10 at the word `[0x05, 1, 2, 3]` (opcode `ADDI`). -/
theorem decode_preserves_payload_at :
    Instruction.payload (Instruction.ADDI ⟨(1, 2, 3)⟩) = (1, 2, 3) ∧
      Instruction.to_bytes4 (Instruction.ADDI ⟨(1, 2, 3)⟩) = (5, 1, 2, 3) :=
  decode_preserves_payload 5 1 2 3 (Instruction.ADDI ⟨(1, 2, 3)⟩) (by decide)
